import Mathlib

/-!
Verification development for the batch emotion-annotation pipeline of the
Political-Tweets-ETL repository.  The definitions below are a shallow
embedding of `app/routes/emotion.py` (constants, `validate_date`,
`EmotionRequest`, the query construction, the per-hit loop of
`analyze_emotions`) together with the collaborator contracts of the
document store (`search`, `update`) that the spec describes in §6.

Scores returned by the classification engine are modelled as rationals:
the code only ever compares them (`max`, `sorted`), so any linearly
ordered field is an adequate model of the float scores.
-/

namespace PoliticalTweetsETL

/-! ## Metrics objects (JSON sub-objects of a stored document) -/

/-- A scalar value stored inside the `metrics` object: the index mapping
declares `long` counters (`retweets`, `likes`) and `keyword` labels
(`emotion`, `stance`). -/
inductive MVal where
  | num : Int → MVal
  | kw : String → MVal
deriving DecidableEq

/-- A JSON object with scalar values, as an association list in field
order.  Real documents have no duplicate keys (`KeysNodup`). -/
abbrev Obj := List (String × MVal)

/-- First-occurrence lookup, the semantics of `d[k]` / `d.get(k)` on a
Python dict rendered as an association list. -/
def getKey : Obj → String → Option MVal
  | [], _ => none
  | (k', v) :: rest, k => if k' = k then some v else getKey rest k

/-- `d[k] = v` on a Python dict: replace the first binding of `k` in
place, or append a new binding when `k` is absent. -/
def setKey : Obj → String → MVal → Obj
  | [], k, v => [(k, v)]
  | (k', v') :: rest, k, v =>
      if k' = k then (k, v) :: rest else (k', v') :: setKey rest k v

/-- JSON objects carry each field name at most once. -/
abbrev KeysNodup (m : Obj) : Prop := (m.map Prod.fst).Nodup

/-- Modelled from the spec: the document store's partial update merges the
partial document's `metrics` object field-by-field into the stored
`metrics` object (named fields replaced, unnamed fields untouched). -/
def mergeObj (base upd : Obj) : Obj :=
  upd.foldl (fun acc kv => setKey acc kv.1 kv.2) base

/-! ## Classification outputs -/

/-- One `{label, score}` pair returned by the classification engine. -/
structure EmotionScore where
  label : String
  score : ℚ
deriving DecidableEq

/-- The `emotion_analysis` object written back to the store. -/
structure EmotionAnalysis where
  dominant_emotion : EmotionScore
  all_emotions : List EmotionScore
deriving DecidableEq

/-- Accumulator form of Python's `max(emotions, key=lambda x: x['score'])`:
a left fold that replaces the current best only on a strictly greater
score, so the first-seen maximal element wins ties. -/
def pyMaxAux (a : EmotionScore) : List EmotionScore → EmotionScore
  | [] => a
  | x :: xs => pyMaxAux (if a.score < x.score then x else a) xs

/-- Python's `max` on a list of emotion scores; `none` models the
`ValueError` raised on an empty sequence. -/
def pyMax : List EmotionScore → Option EmotionScore
  | [] => none
  | x :: xs => some (pyMaxAux x xs)

/-- Recursive characterisation of the first-seen maximum, used to relate
`pyMax` and the head of the stable descending sort. -/
def firstMax? : List EmotionScore → Option EmotionScore
  | [] => none
  | x :: xs =>
      match firstMax? xs with
      | none => some x
      | some m => some (if x.score < m.score then m else x)

/-- Stable insertion step for the descending sort: an element is placed
before the first element whose score it meets or exceeds, so elements
inserted earlier stay in front of later equal-score elements. -/
def insertDesc (a : EmotionScore) : List EmotionScore → List EmotionScore
  | [] => [a]
  | b :: l => if b.score ≤ a.score then a :: b :: l else b :: insertDesc a l

/-- Python's `sorted(emotions, key=lambda x: x['score'], reverse=True)`:
a stable sort by non-increasing score. -/
def sortDesc : List EmotionScore → List EmotionScore
  | [] => []
  | a :: l => insertDesc a (sortDesc l)

/-! ## Documents, hits, and the partial update -/

/-- The slice of a hit's `_source` the loop body reads:
`payload.tweet.content` (collapsed to one optional field; `none` models
the `KeyError` path) and the existing `metrics` object. -/
structure SourceDoc where
  content : Option String
  metrics : Option Obj
deriving DecidableEq

/-- One search hit: Elasticsearch document id plus source snapshot. -/
structure Hit where
  docId : String
  source : SourceDoc
deriving DecidableEq

/-- A stored tweet document.  `extra` stands for every top-level field
the pipeline never names in an update (`payload`, `user`, counters kept
outside `metrics`, ...). -/
structure StoredDoc where
  content : Option String
  created_at : Option String
  metrics : Option Obj
  emotion_analysis : Option EmotionAnalysis
  extra : Obj
deriving DecidableEq

/-- The partial document handed to `es_client.update`: the code builds a
dict with exactly the keys `metrics` and `emotion_analysis`. -/
structure UpdateDoc where
  metrics : Obj
  emotion_analysis : EmotionAnalysis
deriving DecidableEq

/-- Modelled from the spec: `update(id, partial_document)` performs a
field-level merge into the existing document, not a full replace — the
named fields `metrics` (merged object-wise) and `emotion_analysis` are
written, every unnamed field is left untouched. -/
def applyUpdate (old : StoredDoc) (u : UpdateDoc) : StoredDoc :=
  { old with
      metrics := some (mergeObj (old.metrics.getD []) u.metrics)
      emotion_analysis := some u.emotion_analysis }

/-- Key of the emotion label inside `metrics`. -/
def emotionKey : String := "emotion"

/-- The update document built in the loop body: copy the hit's `metrics`
(defaulting to the empty object), overwrite its `emotion` field with the
dominant label, and set `emotion_analysis` from the dominant entry and
the score-sorted list. -/
def buildUpdateDoc (src : SourceDoc) (emotions : List EmotionScore)
    (top : EmotionScore) : UpdateDoc :=
  { metrics := setKey (src.metrics.getD []) emotionKey (MVal.kw top.label)
    emotion_analysis :=
      { dominant_emotion := top, all_emotions := sortDesc emotions } }

/-! ## Date validation (`validate_date` / `datetime.strptime("%Y-%m-%d")`) -/

/-- Numeric value of an ASCII digit (CPython's `\d` also accepts other
Unicode digits; dates in this system are ASCII). -/
def digitVal? (c : Char) : Option Nat :=
  if 48 ≤ c.toNat ∧ c.toNat ≤ 57 then some (c.toNat - 48) else none

/-- Value of an all-digit character group, `none` when any character is
not a digit. -/
def digitsVal? : List Char → Option Nat
  | [] => some 0
  | c :: cs =>
      match digitVal? c, digitsVal? cs with
      | some d, some n => some (d * 10 ^ cs.length + n)
      | _, _ => none

/-- Split a character list on the literal dashes of the date format. -/
def splitDash : List Char → List (List Char)
  | [] => [[]]
  | c :: cs =>
      if c = '-' then [] :: splitDash cs
      else
        match splitDash cs with
        | [] => [[c]]
        | g :: gs => (c :: g) :: gs

/-- Gregorian month length, as enforced by the `datetime` constructor. -/
def daysInMonth (y m : Nat) : Nat :=
  if m = 2 then
    if y % 4 = 0 ∧ (y % 100 ≠ 0 ∨ y % 400 = 0) then 29 else 28
  else if m = 4 ∨ m = 6 ∨ m = 9 ∨ m = 11 then 30
  else 31

/-- The `%Y` group: exactly four digits, and `datetime` requires a year
of at least 1. -/
def parseYear? (cs : List Char) : Option Nat :=
  if cs.length = 4 then
    match digitsVal? cs with
    | some y => if 1 ≤ y then some y else none
    | none => none
  else none

/-- The `%m` group: one or two digits with value 1..12. -/
def parseMonth? (cs : List Char) : Option Nat :=
  if cs.length = 1 ∨ cs.length = 2 then
    match digitsVal? cs with
    | some m => if 1 ≤ m ∧ m ≤ 12 then some m else none
    | none => none
  else none

/-- The `%d` group: one or two digits with value 1..31, or CPython's
space-padded single digit `" 1".." 9"`. -/
def parseDay? (cs : List Char) : Option Nat :=
  match cs with
  | [' ', c] =>
      match digitVal? c with
      | some d => if 1 ≤ d then some d else none
      | none => none
  | _ =>
      if cs.length = 1 ∨ cs.length = 2 then
        match digitsVal? cs with
        | some d => if 1 ≤ d ∧ d ≤ 31 then some d else none
        | none => none
      else none

/-- `datetime.strptime(s, "%Y-%m-%d")` as a total parser: `none` models
the `ValueError` raised on a malformed date or an impossible calendar
day. -/
def parseDate (s : String) : Option (Nat × Nat × Nat) :=
  match splitDash s.data with
  | [ys, ms, ds] =>
      match parseYear? ys, parseMonth? ms, parseDay? ds with
      | some y, some m, some d =>
          if d ≤ daysInMonth y m then some (y, m, d) else none
      | _, _, _ => none
  | _ => none

/-- Python truthiness of an optional string: `None` and the empty string
are falsy. -/
def truthy : Option String → Bool
  | none => false
  | some s => !s.data.isEmpty

/-- Detail string of the 422 raised by `validate_date`. -/
def invalidDateMsg (is_start : Bool) : String :=
  if is_start then "Formato de fecha inicial inválido. Use el formato YYYY-MM-DD"
  else "Formato de fecha final inválido. Use el formato YYYY-MM-DD"

/-- `validate_date(date_str, is_start)`: skipped entirely for a falsy
value, otherwise `some detail` models the raised `HTTPException(422)`. -/
def validate_date (date_str : Option String) (is_start : Bool) : Option String :=
  match date_str with
  | none => none
  | some s =>
      if s.data.isEmpty then none
      else if (parseDate s).isSome then none
      else some (invalidDateMsg is_start)

/-! ## Query building and the search contract -/

/-- The Elasticsearch query built by `analyze_emotions`: `match_all`, or
a `range` on `meta.created_at` with optional inclusive bounds. -/
inductive Query where
  | matchAll
  | range (gte lte : Option String)
deriving DecidableEq

/-- Suffix appended to `start_date` (`T00:00:00` of that day). -/
def dayStart : String := "T00:00:00"

/-- Suffix appended to `end_date` (`T23:59:59` of that day). -/
def dayEnd : String := "T23:59:59"

/-- The query construction of `analyze_emotions`: start from `match_all`
and replace it by a range whenever either bound is truthy; each truthy
bound is normalised to the start / end second of its day. -/
def buildQuery (sd ed : Option String) : Query :=
  if truthy sd || truthy ed then
    .range (if truthy sd then some (sd.getD default ++ dayStart) else none)
           (if truthy ed then some (ed.getD default ++ dayEnd) else none)
  else .matchAll

/-- Lexicographic order on character lists by code point, the order in
which ISO-8601 timestamps of the stored form compare chronologically. -/
def leChars : List Char → List Char → Bool
  | [], _ => true
  | _ :: _, [] => false
  | a :: as, b :: bs =>
      if a.toNat < b.toNat then true
      else if b.toNat < a.toNat then false
      else leChars as bs

/-- String comparison used by the date range semantics. -/
def strLe (s t : String) : Bool := leChars s.data t.data

/-- Modelled from the spec: which documents a query selects.  A `range`
query keeps exactly the documents whose `created_at` lies inclusively
between the bounds. -/
def matchesQuery (q : Query) (createdAt : String) : Bool :=
  match q with
  | .matchAll => true
  | .range gte lte =>
      (match gte with | none => true | some g => strLe g createdAt) &&
      (match lte with | none => true | some l => strLe createdAt l)

/-- `DEFAULT_LIMIT` from `emotion.py`. -/
def DEFAULT_LIMIT : Nat := 10000

/-- The `size` passed to the search:
`request.limit if request.limit else DEFAULT_LIMIT` — Python truthiness,
so `None` (and a zero value) fall back to the default. -/
def effectiveSize (limit : Option Nat) : Nat :=
  match limit with
  | none => DEFAULT_LIMIT
  | some l => if l = 0 then DEFAULT_LIMIT else l

/-! ## The pipeline -/

/-- The request body: every field optional, `limit` validated by
pydantic to be strictly positive when present. -/
structure EmotionRequest where
  start_date : Option String := none
  end_date : Option String := none
  limit : Option Nat := none
deriving DecidableEq

/-- Behaviour of the external collaborators during one run: whether the
store client can be obtained (`ping`), the outcome of the search, the
classification engine, and per-id success of the update call. -/
structure Env where
  connectOk : Bool
  searchResult : Except String (List Hit)
  classify : String → Except String (List EmotionScore)
  updateOk : String → Bool

/-- One collaborator call, in order of occurrence. -/
inductive Call where
  | connect
  | search (q : Query) (size : Nat)
  | classifyCall (text : String)
  | updateCall (id : String) (doc : UpdateDoc)
deriving DecidableEq

/-- The caller-visible outcome: an `EmotionResponse` (HTTP 200) or a
raised `HTTPException` with its status code and detail. -/
inductive RunResult where
  | response (message : String) (processed : Nat)
  | httpError (status : Nat) (detail : String)
deriving DecidableEq

/-- Detail of the 500 raised when the store client cannot connect. -/
def connectFailMsg : String := "No se pudo conectar con Elasticsearch"

/-- The distinguished no-matches message. -/
def noMatchesMsg : String :=
  "No se encontraron tweets en el rango de fechas especificado."

/-- The completion message (the wall-clock seconds the real message also
interpolates are outside the model). -/
def successMsg (succ total : Nat) : String :=
  "Procesamiento completado. " ++ toString succ ++ " de " ++ toString total
    ++ " tweets actualizados."

/-- The body of the per-hit `try`: extract the content (`KeyError` when
absent), classify, take the stable maximum (`ValueError` on an empty
result), build the update document and attempt the update.  Returns the
success flag and the collaborator calls made, in order. -/
def processHit (env : Env) (h : Hit) : Bool × List Call :=
  match h.source.content with
  | none => (false, [])
  | some content =>
      match env.classify content with
      | .error _ => (false, [.classifyCall content])
      | .ok emotions =>
          match pyMax emotions with
          | none => (false, [.classifyCall content])
          | some top =>
              (env.updateOk h.docId,
               [.classifyCall content,
                .updateCall h.docId (buildUpdateDoc h.source emotions top)])

/-- The `for hit in hits` loop: every hit is processed independently, a
failing hit contributes nothing and the loop continues. -/
def processLoop (env : Env) : List Hit → Nat × List Call
  | [] => (0, [])
  | h :: t =>
      let r := processHit env h
      let rest := processLoop env t
      ((if r.1 then 1 else 0) + rest.1, r.2 ++ rest.2)

/-- `successful_updates` after the loop. -/
def processCount (env : Env) (hits : List Hit) : Nat := (processLoop env hits).1

/-- Shallow embedding of the `analyze_emotions` endpoint: default the
missing body, validate both dates, obtain the store client, build the
query, search, and run the loop; the outer handlers turn a connectivity
or search failure into a 500.  Returns the caller-visible outcome and
the trace of collaborator calls. -/
def analyze_emotions (req? : Option EmotionRequest) (env : Env) :
    RunResult × List Call :=
  let request := req?.getD {}
  match validate_date request.start_date true with
  | some detail => (.httpError 422 detail, [])
  | none =>
    match validate_date request.end_date false with
    | some detail => (.httpError 422 detail, [])
    | none =>
      if !env.connectOk then (.httpError 500 connectFailMsg, [.connect])
      else
        let query := buildQuery request.start_date request.end_date
        let size := effectiveSize request.limit
        match env.searchResult with
        | .error e => (.httpError 500 e, [.connect, .search query size])
        | .ok hits =>
          if hits.isEmpty then
            (.response noMatchesMsg 0, [.connect, .search query size])
          else
            let r := processLoop env hits
            (.response (successMsg r.1 hits.length) r.1,
             .connect :: .search query size :: r.2)

/-! ## Association-list lemmas for the metrics merge -/

theorem getKey_setKey_self (m : Obj) (k : String) (v : MVal) :
    getKey (setKey m k v) k = some v := by
  induction m with
  | nil => simp [setKey, getKey]
  | cons kv rest ih =>
      obtain ⟨k', v'⟩ := kv
      by_cases hk : k' = k
      · simp [setKey, hk, getKey]
      · simp [setKey, hk, getKey, ih]

theorem getKey_setKey_ne (m : Obj) (k' k : String) (v : MVal) (hk : k' ≠ k) :
    getKey (setKey m k' v) k = getKey m k := by
  induction m with
  | nil => simp [setKey, getKey, hk]
  | cons kv rest ih =>
      obtain ⟨k₀, v₀⟩ := kv
      by_cases h0 : k₀ = k'
      · subst h0
        have h1 : k₀ ≠ k := hk
        simp [setKey, getKey, h1]
      · rw [show setKey ((k₀, v₀) :: rest) k' v = (k₀, v₀) :: setKey rest k' v by
            simp [setKey, h0]]
        by_cases h1 : k₀ = k
        · simp [getKey, h1]
        · simp [getKey, h1, ih]

theorem keys_setKey_of_mem (m : Obj) (k : String) (v : MVal)
    (h : k ∈ m.map Prod.fst) :
    (setKey m k v).map Prod.fst = m.map Prod.fst := by
  induction m with
  | nil => simp at h
  | cons kv rest ih =>
      obtain ⟨k₀, v₀⟩ := kv
      by_cases h0 : k₀ = k
      · simp [setKey, h0]
      · have hr : k ∈ rest.map Prod.fst := by
          simp at h
          rcases h with h | h
          · exact absurd h.symm h0
          · simpa using h
        simp [setKey, h0, ih hr]

theorem keys_setKey_of_not_mem (m : Obj) (k : String) (v : MVal)
    (h : k ∉ m.map Prod.fst) :
    (setKey m k v).map Prod.fst = m.map Prod.fst ++ [k] := by
  induction m with
  | nil => simp [setKey]
  | cons kv rest ih =>
      obtain ⟨k₀, v₀⟩ := kv
      have h0 : k₀ ≠ k := by
        intro hk
        exact h (by simp [hk])
      have hr : k ∉ rest.map Prod.fst := by
        intro hk
        exact h (by simp [hk])
      simp [setKey, h0, ih hr]

theorem keysNodup_setKey (m : Obj) (k : String) (v : MVal)
    (h : KeysNodup m) : KeysNodup (setKey m k v) := by
  by_cases hm : k ∈ m.map Prod.fst
  · unfold KeysNodup
    rw [keys_setKey_of_mem m k v hm]
    exact h
  · unfold KeysNodup
    rw [keys_setKey_of_not_mem m k v hm]
    refine List.Nodup.append h (List.nodup_singleton k) ?_
    intro a ha hb
    rw [List.mem_singleton] at hb
    subst hb
    exact hm ha

theorem getKey_eq_none_of_not_mem (m : Obj) (k : String)
    (h : k ∉ m.map Prod.fst) : getKey m k = none := by
  induction m with
  | nil => rfl
  | cons kv rest ih =>
      obtain ⟨k₀, v₀⟩ := kv
      have h0 : k₀ ≠ k := by
        intro hk
        exact h (by simp [hk])
      have hr : k ∉ rest.map Prod.fst := by
        intro hk
        exact h (by simp [hk])
      simp [getKey, h0, ih hr]

theorem getKey_mergeObj (base upd : Obj) (hnd : KeysNodup upd) (k : String) :
    getKey (mergeObj base upd) k
      = match getKey upd k with
        | some v => some v
        | none => getKey base k := by
  induction upd generalizing base with
  | nil => simp [mergeObj, getKey]
  | cons kv rest ih =>
      obtain ⟨k₀, v₀⟩ := kv
      have hcons : k₀ ∉ rest.map Prod.fst ∧ (rest.map Prod.fst).Nodup := by
        have := hnd
        unfold KeysNodup at this
        rw [List.map_cons] at this
        exact ⟨(List.nodup_cons.mp this).1, (List.nodup_cons.mp this).2⟩
      have hnd' : KeysNodup rest := hcons.2
      have hk₀ : k₀ ∉ rest.map Prod.fst := hcons.1
      have hstep : mergeObj base ((k₀, v₀) :: rest)
          = mergeObj (setKey base k₀ v₀) rest := rfl
      rw [hstep, ih (setKey base k₀ v₀) hnd']
      by_cases hk : k₀ = k
      · subst hk
        rw [getKey_eq_none_of_not_mem rest k₀ hk₀]
        simp [getKey, getKey_setKey_self]
      · simp [getKey, hk, getKey_setKey_ne base k₀ k v₀ hk]

/-! ## Stable maximum and stable descending sort -/

theorem pyMaxAux_eq_firstMax (xs : List EmotionScore) :
    ∀ a, pyMaxAux a xs
      = match firstMax? xs with
        | none => a
        | some m => if a.score < m.score then m else a := by
  induction xs with
  | nil => intro a; rfl
  | cons x xs ih =>
      intro a
      have hstep : pyMaxAux a (x :: xs)
          = pyMaxAux (if a.score < x.score then x else a) xs := rfl
      rw [hstep, ih]
      cases hm : firstMax? xs with
      | none => simp [firstMax?, hm]
      | some m =>
          simp only [firstMax?, hm]
          by_cases hxm : x.score < m.score
          · by_cases hax : a.score < x.score
            · have ham : a.score < m.score := lt_trans hax hxm
              simp [hxm, hax, ham]
            · simp [hxm, hax]
          · by_cases hax : a.score < x.score
            · simp [hxm, hax]
            · have ham : ¬ a.score < m.score := by
                intro h
                exact hax (lt_of_lt_of_le h (le_of_not_lt hxm))
              simp [hxm, hax, ham]

theorem firstMax?_cons (x : EmotionScore) (xs : List EmotionScore) :
    firstMax? (x :: xs)
      = some (match firstMax? xs with
              | none => x
              | some m => if x.score < m.score then m else x) := by
  cases hm : firstMax? xs <;> simp [firstMax?, hm]

theorem pyMax_eq_firstMax (l : List EmotionScore) : pyMax l = firstMax? l := by
  cases l with
  | nil => rfl
  | cons x xs =>
      show some (pyMaxAux x xs) = _
      rw [pyMaxAux_eq_firstMax, firstMax?_cons]

theorem firstMax_mem_split (l : List EmotionScore) :
    ∀ m, firstMax? l = some m →
      ∃ pre post, l = pre ++ m :: post ∧ (∀ x ∈ pre, x.score < m.score)
        ∧ ∀ x ∈ l, x.score ≤ m.score := by
  induction l with
  | nil => intro m h; simp [firstMax?] at h
  | cons x xs ih =>
      intro m h
      rw [firstMax?_cons] at h
      cases hm : firstMax? xs with
      | none =>
          rw [hm] at h
          have hx : m = x := (Option.some_injective _ h).symm
          have hxs : xs = [] := by
            cases hxx : xs with
            | nil => rfl
            | cons y ys =>
                rw [hxx, firstMax?_cons] at hm
                exact absurd hm (by simp)
          subst hx; subst hxs
          exact ⟨[], [], rfl, by simp, by simp⟩
      | some m' =>
          rw [hm] at h
          have h2 : (if x.score < m'.score then m' else x) = m :=
            Option.some_injective _ h
          obtain ⟨pre', post', hsplit, hpre', hall'⟩ := ih m' hm
          by_cases hxm : x.score < m'.score
          · have hmm : m = m' := by
              rw [if_pos hxm] at h2
              exact h2.symm
            subst hmm
            refine ⟨x :: pre', post', by simp [hsplit], ?_, ?_⟩
            · intro y hy
              rcases List.mem_cons.mp hy with hy | hy
              · subst hy; exact hxm
              · exact hpre' y hy
            · intro y hy
              rcases List.mem_cons.mp hy with hy | hy
              · subst hy; exact le_of_lt hxm
              · exact hall' y hy
          · have hmm : m = x := by
              rw [if_neg hxm] at h2
              exact h2.symm
            subst hmm
            refine ⟨[], xs, by simp, by simp, ?_⟩
            intro y hy
            rcases List.mem_cons.mp hy with hy | hy
            · subst hy; exact le_refl _
            · exact le_trans (hall' y hy) (le_of_not_lt hxm)

/-- Head selector used to compute the head of an insertion. -/
def hdWith (a : EmotionScore) : List EmotionScore → EmotionScore
  | [] => a
  | b :: _ => if b.score ≤ a.score then a else b

theorem head?_insertDesc (a : EmotionScore) (l : List EmotionScore) :
    (insertDesc a l).head? = some (hdWith a l) := by
  cases l with
  | nil => rfl
  | cons b t =>
      by_cases h : b.score ≤ a.score
      · simp [insertDesc, hdWith, h]
      · simp [insertDesc, hdWith, h]

theorem hdWith_insertDesc (l : List EmotionScore) (x y : EmotionScore) :
    hdWith x (insertDesc y l)
      = hdWith (if x.score < y.score then y else x) l := by
  cases l with
  | nil =>
      show hdWith x [y] = _
      by_cases h : x.score < y.score
      · have : ¬ y.score ≤ x.score := not_le_of_lt h
        simp [hdWith, this, h]
      · have : y.score ≤ x.score := le_of_not_lt h
        simp [hdWith, this, h]
  | cons b t =>
      by_cases hby : b.score ≤ y.score
      · have h1 : insertDesc y (b :: t) = y :: b :: t := by simp [insertDesc, hby]
        rw [h1]
        by_cases hxy : x.score < y.score
        · have h2 : ¬ y.score ≤ x.score := not_le_of_lt hxy
          have h3 : b.score ≤ y.score := hby
          simp [hdWith, h2, hxy, h3]
        · have h2 : y.score ≤ x.score := le_of_not_lt hxy
          have h3 : b.score ≤ x.score := le_trans hby h2
          simp [hdWith, h2, hxy, h3]
      · have h1 : insertDesc y (b :: t) = b :: insertDesc y t := by
          simp [insertDesc, hby]
        rw [h1]
        by_cases hxy : x.score < y.score
        · have hbx : ¬ b.score ≤ x.score := by
            intro h
            exact hby (le_trans h (le_of_lt hxy))
          have hb' : ¬ b.score ≤ y.score := hby
          simp [hdWith, hxy, hbx, hb']
        · simp [hdWith, hxy]

theorem hdWith_sortDesc (l : List EmotionScore) :
    ∀ a, hdWith a (sortDesc l) = pyMaxAux a l := by
  induction l with
  | nil => intro a; rfl
  | cons y ys ih =>
      intro a
      show hdWith a (insertDesc y (sortDesc ys)) = _
      rw [hdWith_insertDesc, ih]
      rfl

theorem head?_sortDesc_eq_pyMax (l : List EmotionScore) :
    (sortDesc l).head? = pyMax l := by
  cases l with
  | nil => rfl
  | cons x xs =>
      show (insertDesc x (sortDesc xs)).head? = _
      rw [head?_insertDesc, hdWith_sortDesc]
      rfl

theorem mem_insertDesc (a x : EmotionScore) (l : List EmotionScore) :
    x ∈ insertDesc a l ↔ x = a ∨ x ∈ l := by
  induction l with
  | nil => simp [insertDesc]
  | cons b t ih =>
      by_cases h : b.score ≤ a.score
      · simp [insertDesc, h, List.mem_cons]
      · simp [insertDesc, h, List.mem_cons, ih]
        tauto

theorem pairwise_insertDesc (a : EmotionScore) (l : List EmotionScore)
    (h : l.Pairwise (fun x y => y.score ≤ x.score)) :
    (insertDesc a l).Pairwise (fun x y => y.score ≤ x.score) := by
  induction l with
  | nil => simp [insertDesc]
  | cons b t ih =>
      rcases List.pairwise_cons.mp h with ⟨hb, ht⟩
      by_cases hba : b.score ≤ a.score
      · have h1 : insertDesc a (b :: t) = a :: b :: t := by simp [insertDesc, hba]
        rw [h1]
        refine List.pairwise_cons.mpr ⟨?_, h⟩
        intro y hy
        rcases List.mem_cons.mp hy with hy | hy
        · subst hy; exact hba
        · exact le_trans (hb y hy) hba
      · have h1 : insertDesc a (b :: t) = b :: insertDesc a t := by
          simp [insertDesc, hba]
        rw [h1]
        refine List.pairwise_cons.mpr ⟨?_, ih ht⟩
        intro y hy
        rcases (mem_insertDesc a y t).mp hy with hy | hy
        · subst hy; exact le_of_not_le hba
        · exact hb y hy

theorem sortDesc_pairwise (l : List EmotionScore) :
    (sortDesc l).Pairwise (fun x y => y.score ≤ x.score) := by
  induction l with
  | nil => simp [sortDesc]
  | cons a t ih => exact pairwise_insertDesc a (sortDesc t) ih

/-! ## Loop lemmas -/

/-- Whether a collaborator call is an update attempt on document `id`. -/
def updatesTo (id : String) : Call → Bool
  | .updateCall i _ => decide (i = id)
  | _ => false

theorem processLoop_append (env : Env) (l₁ l₂ : List Hit) :
    processLoop env (l₁ ++ l₂)
      = ((processLoop env l₁).1 + (processLoop env l₂).1,
         (processLoop env l₁).2 ++ (processLoop env l₂).2) := by
  induction l₁ with
  | nil => simp [processLoop]
  | cons h t ih => simp [processLoop, ih, Nat.add_assoc]

theorem processHit_of_content_none (env : Env) (h : Hit)
    (hc : h.source.content = none) : processHit env h = (false, []) := by
  simp [processHit, hc]

theorem processHit_success_content (env : Env) (h : Hit)
    (hs : (processHit env h).1 = true) : h.source.content.isSome := by
  cases hco : h.source.content with
  | none => rw [processHit_of_content_none env h hco] at hs; simp at hs
  | some c => simp

theorem processCount_le_countP (env : Env) (hits : List Hit) :
    processCount env hits ≤ hits.countP (fun h => h.source.content.isSome) := by
  induction hits with
  | nil => simp [processCount, processLoop]
  | cons h t ih =>
      have hstep : processCount env (h :: t)
          = (if (processHit env h).1 then 1 else 0) + processCount env t := rfl
      rw [hstep, List.countP_cons]
      cases hb : (processHit env h).1 with
      | false => simp; omega
      | true =>
          have : h.source.content.isSome = true := processHit_success_content env h hb
          simp [this]
          omega

theorem countP_isSome_eq (hits : List Hit) :
    hits.countP (fun h => h.source.content.isSome)
      = hits.length - hits.countP (fun h => h.source.content.isNone) := by
  induction hits with
  | nil => simp
  | cons h t ih =>
      rw [List.countP_cons, List.countP_cons, List.length_cons]
      have hle : t.countP (fun h => h.source.content.isNone) ≤ t.length :=
        List.countP_le_length _
      cases hco : h.source.content <;> simp [hco] <;> omega

theorem processHit_updates_self (env : Env) (h : Hit) (id : String) :
    (processHit env h).2.countP (updatesTo id) ≤ 1 := by
  cases hco : h.source.content with
  | none => simp [processHit, hco]
  | some c =>
      cases hcl : env.classify c with
      | error e => simp [processHit, hco, hcl, updatesTo]
      | ok emotions =>
          cases hm : pyMax emotions with
          | none => simp [processHit, hco, hcl, hm, updatesTo]
          | some top =>
              by_cases hid : h.docId = id <;>
                simp [processHit, hco, hcl, hm, updatesTo, List.countP_cons, hid]

theorem processHit_updates_other (env : Env) (h : Hit) (id : String)
    (hne : h.docId ≠ id) :
    (processHit env h).2.countP (updatesTo id) = 0 := by
  cases hco : h.source.content with
  | none => simp [processHit, hco]
  | some c =>
      cases hcl : env.classify c with
      | error e => simp [processHit, hco, hcl, updatesTo]
      | ok emotions =>
          cases hm : pyMax emotions with
          | none => simp [processHit, hco, hcl, hm, updatesTo]
          | some top =>
              simp [processHit, hco, hcl, hm, updatesTo, List.countP_cons, hne]

theorem processLoop_updates_zero (env : Env) (hits : List Hit) (id : String)
    (hnm : id ∉ hits.map Hit.docId) :
    (processLoop env hits).2.countP (updatesTo id) = 0 := by
  induction hits with
  | nil => simp [processLoop]
  | cons h t ih =>
      have h1 : h.docId ≠ id := by
        intro he
        exact hnm (by simp [he])
      have h2 : id ∉ t.map Hit.docId := by
        intro he
        exact hnm (by simp [he])
      have hstep : (processLoop env (h :: t)).2
          = (processHit env h).2 ++ (processLoop env t).2 := rfl
      rw [hstep, List.countP_append, processHit_updates_other env h id h1, ih h2]

theorem processLoop_updates_le_one (env : Env) (hits : List Hit) (id : String)
    (hnd : (hits.map Hit.docId).Nodup) :
    (processLoop env hits).2.countP (updatesTo id) ≤ 1 := by
  induction hits with
  | nil => simp [processLoop]
  | cons h t ih =>
      have hnd2 : (h.docId :: t.map Hit.docId).Nodup := by
        rw [List.map_cons] at hnd
        exact hnd
      have hcons := List.nodup_cons.mp hnd2
      have hstep : (processLoop env (h :: t)).2
          = (processHit env h).2 ++ (processLoop env t).2 := rfl
      rw [hstep, List.countP_append]
      by_cases hid : h.docId = id
      · subst hid
        have hz : (processLoop env t).2.countP (updatesTo h.docId) = 0 :=
          processLoop_updates_zero env t h.docId hcons.1
        have h1 := processHit_updates_self env h h.docId
        omega
      · rw [processHit_updates_other env h id hid]
        have := ih hcons.2
        omega

/-! ## Message lemmas -/

theorem successMsg_head (a b : Nat) : (successMsg a b).data.head? = some 'P' := by
  show ((("Procesamiento completado. " ++ toString a) ++ " de ") ++ toString b
      ++ " tweets actualizados.").data.head? = some 'P'
  rw [String.data_append, String.data_append, String.data_append,
    String.data_append]
  rfl

theorem noMatchesMsg_ne_successMsg (a b : Nat) : noMatchesMsg ≠ successMsg a b := by
  intro h
  have h1 : noMatchesMsg.data.head? = (successMsg a b).data.head? := by rw [h]
  rw [successMsg_head] at h1
  have h2 : noMatchesMsg.data.head? = some 'N' := rfl
  rw [h2] at h1
  exact absurd h1 (by decide)

/-! ## Behaviour of `analyze_emotions` after a successful search -/

theorem analyze_emotions_eq_ok (req? : Option EmotionRequest) (env : Env)
    (hits : List Hit)
    (hv1 : validate_date (req?.getD {}).start_date true = none)
    (hv2 : validate_date (req?.getD {}).end_date false = none)
    (hc : env.connectOk = true)
    (hs : env.searchResult = .ok hits) :
    analyze_emotions req? env
      = if hits.isEmpty then
          (.response noMatchesMsg 0,
           [.connect,
            .search (buildQuery (req?.getD {}).start_date (req?.getD {}).end_date)
              (effectiveSize (req?.getD {}).limit)])
        else
          (.response (successMsg (processLoop env hits).1 hits.length)
            (processLoop env hits).1,
           .connect
             :: .search (buildQuery (req?.getD {}).start_date (req?.getD {}).end_date)
               (effectiveSize (req?.getD {}).limit)
             :: (processLoop env hits).2) := by
  simp [analyze_emotions, hv1, hv2, hc, hs]

/-! ## Concrete fixtures used by the witnesses -/

def emptyStr : String := ""
def day314 : String := "2024-03-14"
def day314Start : String := "2024-03-14T00:00:00"
def day314End : String := "2024-03-14T23:59:59"
def day314Noon : String := "2024-03-14T12:00:00"
def dayAfterStart : String := "2024-03-15T00:00:00"
def badMonth : String := "2024-13-01"
def notADate : String := "not-a-date"

def wGreat : String := "great day"
def wSad : String := "so sad"
def wDownMsg : String := "engine down"
def wSearchFailMsg : String := "search exploded"
def wLikesKey : String := "likes"
def wOldLabel : String := "sadness"
def wJoy : String := "joy"
def wAnger : String := "anger"
def wFear : String := "fear"
def wId1 : String := "t1"
def wId2 : String := "t2"
def wId3 : String := "t3"

def wEmotions : List EmotionScore := [⟨wJoy, 2⟩, ⟨wAnger, 2⟩, ⟨wFear, 1⟩]

def wTop : EmotionScore := ⟨wJoy, 2⟩

def wHit : Hit :=
  { docId := wId1
    source := { content := some wGreat
                metrics := some [(wLikesKey, .num 3), (emotionKey, .kw wOldLabel)] } }

def wHitNoContent : Hit :=
  { docId := wId2, source := { content := none, metrics := none } }

def wHitNoMetrics : Hit :=
  { docId := wId3, source := { content := some wSad, metrics := none } }

def wEnv : Env :=
  { connectOk := true
    searchResult := .ok [wHit, wHitNoContent, wHitNoMetrics]
    classify := fun _ => .ok wEmotions
    updateOk := fun _ => true }

def wEnvEmpty : Env :=
  { connectOk := true
    searchResult := .ok []
    classify := fun _ => .error wDownMsg
    updateOk := fun _ => false }

def wEnvDown : Env :=
  { connectOk := false
    searchResult := .error wSearchFailMsg
    classify := fun _ => .error wDownMsg
    updateOk := fun _ => false }

def wEnvSearchFail : Env :=
  { connectOk := true
    searchResult := .error wSearchFailMsg
    classify := fun _ => .error wDownMsg
    updateOk := fun _ => false }

def wOld : StoredDoc :=
  { content := some wGreat
    created_at := some day314Start
    metrics := some [(wLikesKey, .num 3), (emotionKey, .kw wOldLabel)]
    emotion_analysis := none
    extra := [(wLikesKey, .num 9)] }

def wOldBare : StoredDoc :=
  { content := some wSad
    created_at := none
    metrics := none
    emotion_analysis := none
    extra := [] }

def wHits : List Hit := [wHit, wHitNoContent, wHitNoMetrics]

def wUpd : UpdateDoc := buildUpdateDoc wHit.source wEmotions wTop

def wUpdBare : UpdateDoc := buildUpdateDoc wHitNoMetrics.source wEmotions wTop

/-! ## Claims -/

/-- C3: every classification output written by the pipeline has
`all_emotions` sorted by non-increasing confidence, its `dominant_emotion`
is the head of `all_emotions` (hence equal labels), and the dominant
entry is the first-seen maximal element of the engine's output — on a
confidence tie the first-seen one wins (stable max). -/
theorem C3_ordering_invariant (src : SourceDoc) (emotions : List EmotionScore)
    (top : EmotionScore) (htop : pyMax emotions = some top) :
    (buildUpdateDoc src emotions top).emotion_analysis.dominant_emotion = top ∧
    (buildUpdateDoc src emotions top).emotion_analysis.all_emotions.Pairwise
      (fun x y => y.score ≤ x.score) ∧
    (buildUpdateDoc src emotions top).emotion_analysis.all_emotions.head?
      = some top ∧
    ∃ pre post, emotions = pre ++ top :: post
      ∧ (∀ x ∈ pre, x.score < top.score)
      ∧ ∀ x ∈ emotions, x.score ≤ top.score := by
  refine ⟨rfl, sortDesc_pairwise emotions, ?_, ?_⟩
  · show (sortDesc emotions).head? = some top
    rw [head?_sortDesc_eq_pyMax, htop]
  · have h := htop
    rw [pyMax_eq_firstMax] at h
    exact firstMax_mem_split emotions top h

/-- C3 witness: a concrete engine output with a confidence tie — the
first-seen of the two tied labels is dominant and heads the sorted
sequence. -/
theorem C3_ordering_invariant_witness :
    pyMax wEmotions = some wTop ∧
    (buildUpdateDoc wHit.source wEmotions wTop).emotion_analysis.dominant_emotion
      = wTop ∧
    (buildUpdateDoc wHit.source wEmotions wTop).emotion_analysis.all_emotions.head?
      = some wTop :=
  ⟨by decide,
   (C3_ordering_invariant wHit.source wEmotions wTop (by decide)).1,
   (C3_ordering_invariant wHit.source wEmotions wTop (by decide)).2.2.1⟩

/-- C4 counterexample: the effective search size is exactly the
caller-supplied cap, with no fixed upper maximum — 20000 exceeds the
default 10000, and no constant bounds the size over all caller caps. -/
theorem C4_counterexample :
    effectiveSize (some 20000) = 20000 ∧
    ¬ ∃ M : Nat, ∀ l : Nat, l ≠ 0 → effectiveSize (some l) ≤ M := by
  constructor
  · rfl
  · rintro ⟨M, hM⟩
    have h1 := hM (M + 1) (by omega)
    have h2 : effectiveSize (some (M + 1)) = M + 1 := by
      simp [effectiveSize]
    omega

/-- C4 (amended): when the caller supplies no cap the search size
defaults to the fixed constant `DEFAULT_LIMIT = 10000`; when the caller
supplies a positive cap the effective size is exactly that cap — no
separate fixed maximum bounds it. -/
theorem C4_size_default_and_cap (l : Nat) (hl : l ≠ 0) :
    effectiveSize none = DEFAULT_LIMIT ∧ DEFAULT_LIMIT = 10000 ∧
    effectiveSize (some l) = l := by
  refine ⟨rfl, rfl, ?_⟩
  simp [effectiveSize, hl]

/-- C4 witness: the default and a concrete caller cap of 20000. -/
theorem C4_size_default_and_cap_witness :
    (20000 : Nat) ≠ 0 ∧ effectiveSize none = DEFAULT_LIMIT ∧
    effectiveSize (some 20000) = 20000 :=
  ⟨by decide, (C4_size_default_and_cap 20000 (by decide)).1,
   (C4_size_default_and_cap 20000 (by decide)).2.2⟩

/-- C6 counterexample: an empty-string bound is supplied (not absent),
does not parse as a date, yet the built query is `match_all`, not a
range filter — Python truthiness treats `""` like a missing bound. -/
theorem C6_counterexample :
    buildQuery (some emptyStr) none = Query.matchAll ∧
    (some emptyStr : Option String) ≠ none ∧
    parseDate emptyStr = none := by
  refine ⟨rfl, by simp, rfl⟩

/-- C6 (amended): if both date bounds are absent — or supplied as empty
strings, which the code treats as absent — the built query is match-all;
if either bound is a non-empty string the query is an inclusive range on
the created-at field with `start_date` normalised to `T00:00:00` and
`end_date` to `T23:59:59`; for `start_date = end_date = "2024-03-14"`
exactly the documents with `created_at` in
`["2024-03-14T00:00:00", "2024-03-14T23:59:59"]` are selected. -/
theorem C6_date_window (sd ed : Option String)
    (h1 : truthy sd = false) (h2 : truthy ed = false) :
    buildQuery sd ed = Query.matchAll ∧
    buildQuery (some day314) (some day314)
      = Query.range (some day314Start) (some day314End) ∧
    ∀ c, matchesQuery (buildQuery (some day314) (some day314)) c = true
      ↔ (strLe day314Start c = true ∧ strLe c day314End = true) := by
  refine ⟨?_, by decide, ?_⟩
  · simp [buildQuery, h1, h2]
  · intro c
    show (strLe day314Start c && strLe c day314End) = true
      ↔ (strLe day314Start c = true ∧ strLe c day314End = true)
    simp

/-- C6 witness: no bounds give match-all; the single-day window accepts
a noon timestamp of that day and rejects midnight of the next day. -/
theorem C6_date_window_witness :
    buildQuery none none = Query.matchAll ∧
    matchesQuery (buildQuery (some day314) (some day314)) day314Noon = true ∧
    matchesQuery (buildQuery (some day314) (some day314)) dayAfterStart = false :=
  ⟨(C6_date_window none none rfl rfl).1,
   ((C6_date_window none none rfl rfl).2.2 day314Noon).mpr ⟨by decide, by decide⟩,
   by decide⟩

/-- C7 counterexample: `start_date = ""` does not parse as a date, yet
the endpoint returns no validation failure — the run proceeds to the
store client and the search (Python truthiness skips the check). -/
theorem C7_counterexample :
    parseDate emptyStr = none ∧
    analyze_emotions (some { start_date := some emptyStr }) wEnvEmpty
      = (.response noMatchesMsg 0,
         [.connect, .search .matchAll DEFAULT_LIMIT]) := by
  exact ⟨rfl, by decide⟩

/-- C7 (amended): for every request in which `start_date` or `end_date`
is a supplied non-empty string that does not parse as a `YYYY-MM-DD`
calendar date, the endpoint returns the 422 validation failure naming
that bound (start checked first), and makes zero collaborator calls —
no client creation, no search, no update.  An empty-string bound is
treated as absent. -/
theorem C7_invalid_date_rejected (req? : Option EmotionRequest) (env : Env) :
    (∀ s, (req?.getD {}).start_date = some s → s.data.isEmpty = false →
      parseDate s = none →
      analyze_emotions req? env = (.httpError 422 (invalidDateMsg true), [])) ∧
    (∀ s, validate_date (req?.getD {}).start_date true = none →
      (req?.getD {}).end_date = some s → s.data.isEmpty = false →
      parseDate s = none →
      analyze_emotions req? env = (.httpError 422 (invalidDateMsg false), [])) := by
  constructor
  · intro s hsd hne hp
    have hv : validate_date (req?.getD {}).start_date true
        = some (invalidDateMsg true) := by
      rw [hsd]
      simp [validate_date, hne, hp]
    simp [analyze_emotions, hv]
  · intro s hv1 hed hne hp
    have hv : validate_date (req?.getD {}).end_date false
        = some (invalidDateMsg false) := by
      rw [hed]
      simp [validate_date, hne, hp]
    simp [analyze_emotions, hv1, hv]

/-- C7 witness: a month-13 start date is rejected with the start-naming
detail and an empty call trace, against a live environment. -/
theorem C7_invalid_date_rejected_witness :
    (((some { start_date := some badMonth } : Option EmotionRequest).getD {}).start_date
        = some badMonth) ∧
    badMonth.data.isEmpty = false ∧
    parseDate badMonth = none ∧
    analyze_emotions (some { start_date := some badMonth }) wEnv
      = (.httpError 422 (invalidDateMsg true), []) :=
  ⟨rfl, by decide, by decide,
   (C7_invalid_date_rejected (some { start_date := some badMonth }) wEnv).1
     badMonth rfl (by decide) (by decide)⟩

/-- C1: for every selection of hits in which exactly K hits lack the
content field, the run processes all N hits (the loop never aborts — the
count over a concatenation is the sum over both parts), skips each
failing hit, attempts at most one update per document per run, returns a
success outcome, and reports `successfully_updated ≤ N - K`. -/
theorem C1_partial_failure_isolation (req? : Option EmotionRequest) (env : Env)
    (hits : List Hit)
    (hv1 : validate_date (req?.getD {}).start_date true = none)
    (hv2 : validate_date (req?.getD {}).end_date false = none)
    (hc : env.connectOk = true)
    (hs : env.searchResult = .ok hits) :
    (∃ msg, analyze_emotions req? env
        = (.response msg (processCount env hits),
           .connect
             :: .search (buildQuery (req?.getD {}).start_date (req?.getD {}).end_date)
               (effectiveSize (req?.getD {}).limit)
             :: (processLoop env hits).2)) ∧
    processCount env hits
      ≤ hits.length - hits.countP (fun h => h.source.content.isNone) ∧
    (∀ h ∈ hits, h.source.content = none → processHit env h = (false, [])) ∧
    ((hits.map Hit.docId).Nodup →
      ∀ id, (analyze_emotions req? env).2.countP (updatesTo id) ≤ 1) ∧
    (∀ l₁ l₂, processCount env (l₁ ++ l₂)
        = processCount env l₁ + processCount env l₂) := by
  have hmain := analyze_emotions_eq_ok req? env hits hv1 hv2 hc hs
  have htrace : ∃ msg, analyze_emotions req? env
      = (.response msg (processCount env hits),
         .connect
           :: .search (buildQuery (req?.getD {}).start_date (req?.getD {}).end_date)
             (effectiveSize (req?.getD {}).limit)
           :: (processLoop env hits).2) := by
    by_cases he : hits.isEmpty
    · have he' : hits = [] := by
        cases hits with
        | nil => rfl
        | cons a t => simp at he
      subst he'
      exact ⟨noMatchesMsg, by rw [hmain]; simp [processCount, processLoop]⟩
    · exact ⟨successMsg (processLoop env hits).1 hits.length,
        by rw [hmain, if_neg he]; simp [processCount]⟩
  refine ⟨htrace, ?_, ?_, ?_, ?_⟩
  · calc processCount env hits
        ≤ hits.countP (fun h => h.source.content.isSome) :=
          processCount_le_countP env hits
      _ = hits.length - hits.countP (fun h => h.source.content.isNone) :=
          countP_isSome_eq hits
  · intro h hmem hcn
    exact processHit_of_content_none env h hcn
  · intro hnd id
    obtain ⟨msg, heq⟩ := htrace
    rw [heq]
    have hle := processLoop_updates_le_one env hits id hnd
    simp [List.countP_cons, updatesTo]
    omega
  · intro l₁ l₂
    simp [processCount, processLoop_append]

/-- C1 witness: three hits of which exactly one lacks content — the run
returns a success outcome counting at most two updates and each document
is updated at most once. -/
theorem C1_partial_failure_isolation_witness :
    wEnv.searchResult = .ok wHits ∧
    processCount wEnv wHits
      ≤ wHits.length - wHits.countP (fun h => h.source.content.isNone) ∧
    ((wHits.map Hit.docId).Nodup →
      ∀ id, (analyze_emotions none wEnv).2.countP (updatesTo id) ≤ 1) :=
  ⟨rfl,
   (C1_partial_failure_isolation none wEnv wHits rfl rfl rfl rfl).2.1,
   (C1_partial_failure_isolation none wEnv wHits rfl rfl rfl rfl).2.2.2.1⟩

/-- C2: every update the pipeline issues targets the hit's own document
id; the partial document carries only the `metrics` and
`emotion_analysis` fields, its `metrics` keeps every snapshot field
other than `emotion` unchanged, and after the store's merge every
pre-existing `metrics` field other than `emotion` — and every field of
the document outside the two named ones — has the same value as
before. -/
theorem C2_merge_preservation (env : Env) (h : Hit) (id : String) (u : UpdateDoc)
    (hmem : Call.updateCall id u ∈ (processHit env h).2) :
    id = h.docId ∧
    (∀ k, k ≠ emotionKey →
      getKey u.metrics k = getKey (h.source.metrics.getD []) k) ∧
    (∀ old : StoredDoc, old.metrics.getD [] = h.source.metrics.getD [] →
      KeysNodup (h.source.metrics.getD []) →
      (∀ k, k ≠ emotionKey →
        getKey ((applyUpdate old u).metrics.getD []) k
          = getKey (old.metrics.getD []) k) ∧
      (applyUpdate old u).content = old.content ∧
      (applyUpdate old u).created_at = old.created_at ∧
      (applyUpdate old u).extra = old.extra) := by
  cases hco : h.source.content with
  | none =>
      rw [processHit_of_content_none env h hco] at hmem
      simp at hmem
  | some c =>
      cases hcl : env.classify c with
      | error e => simp [processHit, hco, hcl] at hmem
      | ok emotions =>
          cases hm : pyMax emotions with
          | none => simp [processHit, hco, hcl, hm] at hmem
          | some top =>
              simp [processHit, hco, hcl, hm] at hmem
              obtain ⟨hid, hu⟩ := hmem
              subst hid
              subst hu
              refine ⟨rfl, ?_, ?_⟩
              · intro k hk
                show getKey (setKey (h.source.metrics.getD []) emotionKey
                    (MVal.kw top.label)) k = getKey (h.source.metrics.getD []) k
                exact getKey_setKey_ne _ emotionKey k _ (Ne.symm hk)
              · intro old hsnap hnd
                refine ⟨?_, rfl, rfl, rfl⟩
                intro k hk
                show getKey (mergeObj (old.metrics.getD [])
                    (buildUpdateDoc h.source emotions top).metrics) k
                  = getKey (old.metrics.getD []) k
                rw [hsnap]
                have hndu : KeysNodup (buildUpdateDoc h.source emotions top).metrics :=
                  keysNodup_setKey _ _ _ hnd
                rw [getKey_mergeObj _ _ hndu k]
                have hupd : getKey (buildUpdateDoc h.source emotions top).metrics k
                    = getKey (h.source.metrics.getD []) k :=
                  getKey_setKey_ne _ emotionKey k _ (Ne.symm hk)
                rw [hupd]
                cases hgk : getKey (h.source.metrics.getD []) k <;> simp [hgk]

/-- C2 witness: a concrete update on a document whose metrics hold a
counter and an old emotion label — the counter keeps its value, the
untouched top-level fields are unchanged. -/
theorem C2_merge_preservation_witness :
    (Call.updateCall wId1 wUpd ∈ (processHit wEnv wHit).2) ∧
    getKey ((applyUpdate wOld wUpd).metrics.getD []) wLikesKey
      = getKey (wOld.metrics.getD []) wLikesKey ∧
    (applyUpdate wOld wUpd).extra = wOld.extra :=
  ⟨by decide,
   ((C2_merge_preservation wEnv wHit wId1 wUpd (by decide)).2.2 wOld
      (by decide) (by decide)).1 wLikesKey (by decide),
   ((C2_merge_preservation wEnv wHit wId1 wUpd (by decide)).2.2 wOld
      (by decide) (by decide)).2.2.2⟩

/-- C5: with valid dates, a connectivity failure before the loop — the
store client not obtainable, or the search itself failing — aborts the
run with the 500 outcome and no partial run outcome (the result is an
error, not a response, and carries no processed count), and that outcome
is distinct from the 422 client-error outcome of validation failures. -/
theorem C5_pre_loop_connectivity (req? : Option EmotionRequest) (env : Env)
    (hv1 : validate_date (req?.getD {}).start_date true = none)
    (hv2 : validate_date (req?.getD {}).end_date false = none) :
    (env.connectOk = false →
      analyze_emotions req? env = (.httpError 500 connectFailMsg, [.connect])) ∧
    (∀ e, env.connectOk = true → env.searchResult = .error e →
      analyze_emotions req? env
        = (.httpError 500 e,
           [.connect,
            .search (buildQuery (req?.getD {}).start_date (req?.getD {}).end_date)
              (effectiveSize (req?.getD {}).limit)])) ∧
    (∀ d s, RunResult.httpError 500 d ≠ RunResult.httpError 422 s) ∧
    (∀ d msg n, RunResult.httpError 500 d ≠ RunResult.response msg n) := by
  refine ⟨?_, ?_, ?_, ?_⟩
  · intro hc
    simp [analyze_emotions, hv1, hv2, hc]
  · intro e hc hsr
    simp [analyze_emotions, hv1, hv2, hc, hsr]
  · intro d s
    simp
  · intro d msg n
    simp

/-- C5 witness: a dead store aborts with the connection 500 after only
the client-creation attempt; a failing search aborts with its 500 after
client creation and the search call. -/
theorem C5_pre_loop_connectivity_witness :
    analyze_emotions none wEnvDown
      = (.httpError 500 connectFailMsg, [.connect]) ∧
    analyze_emotions none wEnvSearchFail
      = (.httpError 500 wSearchFailMsg,
         [.connect, .search Query.matchAll DEFAULT_LIMIT]) :=
  ⟨(C5_pre_loop_connectivity none wEnvDown rfl rfl).1 rfl,
   (C5_pre_loop_connectivity none wEnvSearchFail rfl rfl).2.1
     wSearchFailMsg rfl rfl⟩

/-- C8: a search returning zero hits makes the run return immediately
with processed = 0 and the distinguished no-matches message — a success
outcome, never an error — and no classification or update call is
made (the trace holds only the client creation and the search). -/
theorem C8_empty_selection (req? : Option EmotionRequest) (env : Env)
    (hv1 : validate_date (req?.getD {}).start_date true = none)
    (hv2 : validate_date (req?.getD {}).end_date false = none)
    (hc : env.connectOk = true)
    (hs : env.searchResult = .ok ([] : List Hit)) :
    analyze_emotions req? env
      = (.response noMatchesMsg 0,
         [.connect,
          .search (buildQuery (req?.getD {}).start_date (req?.getD {}).end_date)
            (effectiveSize (req?.getD {}).limit)]) ∧
    (∀ a b, noMatchesMsg ≠ successMsg a b) ∧
    ∀ st d, (analyze_emotions req? env).1 ≠ .httpError st d := by
  have hmain := analyze_emotions_eq_ok req? env [] hv1 hv2 hc hs
  have hm2 : analyze_emotions req? env
      = (.response noMatchesMsg 0,
         [.connect,
          .search (buildQuery (req?.getD {}).start_date (req?.getD {}).end_date)
            (effectiveSize (req?.getD {}).limit)]) := by
    rw [hmain]
    simp
  refine ⟨hm2, fun a b => noMatchesMsg_ne_successMsg a b, ?_⟩
  intro st d
  rw [hm2]
  simp

/-- C8 witness: the empty store selection returns the no-matches
response with zero processed and only the two pre-loop calls. -/
theorem C8_empty_selection_witness :
    analyze_emotions none wEnvEmpty
      = (.response noMatchesMsg 0,
         [.connect, .search Query.matchAll DEFAULT_LIMIT]) :=
  (C8_empty_selection none wEnvEmpty rfl rfl rfl rfl).1

/-- C9: invoking the endpoint with no request body is identical to
invoking it with the empty filter: the default request is used, the
search is match-all with the default size cap, the call never fails
validation, and with a reachable store it returns a success outcome. -/
theorem C9_no_body_default (env : Env) :
    analyze_emotions none env = analyze_emotions (some {}) env ∧
    buildQuery none none = Query.matchAll ∧
    effectiveSize none = DEFAULT_LIMIT ∧
    (∀ d, (analyze_emotions none env).1 ≠ .httpError 422 d) ∧
    (∀ hits, env.connectOk = true → env.searchResult = .ok hits →
      ∃ msg n, analyze_emotions none env
        = (.response msg n,
           .connect :: .search Query.matchAll DEFAULT_LIMIT
             :: (processLoop env hits).2)) := by
  refine ⟨rfl, rfl, rfl, ?_, ?_⟩
  · intro d
    cases hc : env.connectOk with
    | false =>
        have heq : analyze_emotions none env
            = (.httpError 500 connectFailMsg, [.connect]) := by
          simp [analyze_emotions, validate_date, hc]
        rw [heq]
        simp
    | true =>
        cases hsr : env.searchResult with
        | error e =>
            have heq : analyze_emotions none env
                = (.httpError 500 e,
                   [.connect, .search Query.matchAll DEFAULT_LIMIT]) := by
              simp [analyze_emotions, validate_date, hc, hsr, buildQuery,
                truthy, effectiveSize]
            rw [heq]
            simp
        | ok hits =>
            have hmain := analyze_emotions_eq_ok none env hits rfl rfl hc hsr
            rw [hmain]
            by_cases he : hits.isEmpty <;> simp [he]
  · intro hits hc hsr
    have hmain := analyze_emotions_eq_ok none env hits rfl rfl hc hsr
    by_cases he : hits.isEmpty
    · have he' : hits = [] := by
        cases hits with
        | nil => rfl
        | cons a t => simp at he
      subst he'
      exact ⟨noMatchesMsg, 0,
        by rw [hmain]; simp [buildQuery, truthy, effectiveSize, processLoop]⟩
    · exact ⟨successMsg (processLoop env hits).1 hits.length,
        (processLoop env hits).1,
        by rw [hmain, if_neg he]; simp [buildQuery, truthy, effectiveSize]⟩

/-- C9 witness: with no body against a live store the run succeeds and
the issued search is match-all at the default cap. -/
theorem C9_no_body_default_witness :
    analyze_emotions none wEnv = analyze_emotions (some {}) wEnv ∧
    (∃ msg n, analyze_emotions none wEnv
      = (.response msg n,
         .connect :: .search Query.matchAll DEFAULT_LIMIT
           :: (processLoop wEnv wHits).2)) :=
  ⟨(C9_no_body_default wEnv).1,
   (C9_no_body_default wEnv).2.2.2.2 wHits rfl rfl⟩

/-- C10: a hit whose source lacks the `metrics` field entirely is not a
per-document failure — the update document is built with metrics
defaulting to the empty object plus the dominant emotion, the update
proceeds, and the stored metrics afterwards contains exactly the
`emotion` field. -/
theorem C10_missing_metrics_default (env : Env) (h : Hit) (c : String)
    (emotions : List EmotionScore) (top : EmotionScore)
    (hco : h.source.content = some c)
    (hmet : h.source.metrics = none)
    (hcl : env.classify c = .ok emotions)
    (htop : pyMax emotions = some top)
    (hup : env.updateOk h.docId = true) :
    processHit env h
      = (true, [.classifyCall c,
          .updateCall h.docId (buildUpdateDoc h.source emotions top)]) ∧
    (buildUpdateDoc h.source emotions top).metrics
      = [(emotionKey, MVal.kw top.label)] ∧
    ∀ old : StoredDoc, old.metrics = none →
      (applyUpdate old (buildUpdateDoc h.source emotions top)).metrics
        = some [(emotionKey, MVal.kw top.label)] := by
  refine ⟨?_, ?_, ?_⟩
  · simp [processHit, hco, hcl, htop, hup]
  · simp [buildUpdateDoc, hmet, setKey]
  · intro old hold
    simp [applyUpdate, hold, buildUpdateDoc, hmet, mergeObj, setKey]

/-- C10 witness: the metrics-less hit is processed successfully and a
bare stored document ends up with exactly the emotion field. -/
theorem C10_missing_metrics_default_witness :
    processHit wEnv wHitNoMetrics
      = (true, [.classifyCall wSad, .updateCall wId3 wUpdBare]) ∧
    (applyUpdate wOldBare wUpdBare).metrics
      = some [(emotionKey, MVal.kw wTop.label)] :=
  ⟨(C10_missing_metrics_default wEnv wHitNoMetrics wSad wEmotions wTop
      rfl rfl rfl (by decide) rfl).1,
   (C10_missing_metrics_default wEnv wHitNoMetrics wSad wEmotions wTop
      rfl rfl rfl (by decide) rfl).2.2 wOldBare rfl⟩

end PoliticalTweetsETL
